import Mathlib

/-!
# MusicReimann: the equation sound generator

A shallow embedding of `EquationSoundGenerator.js` (and of its duplicate
`EquationSoundGenerator1.js`, whose logic is the same line for line).

Numbers are the elements of a linearly ordered field `α` (exact arithmetic; the
rounding of IEEE doubles is not represented).  `Math.abs`, `Math.min`,
`Math.max` and `**` are the field's own operations.  The transcendental
functions of the host `Math` object are a parameter, `JSMath`.

The Web Audio API is represented by the list of calls made on it and by the
two sets the host keeps: the oscillators that sound, and the stopped
oscillators whose `ended` event is still to be delivered.
-/

namespace MusicReimann


/-- The functions of the host `Math` object that the component calls and that
are not field operations. -/
structure JSMath (α : Type) where
  sin : α → α
  cos : α → α
  tan : α → α
  exp : α → α
  log : α → α
  sqrt : α → α

/-- One record `{ t, z }` of the `data` array. -/
structure Sample (α : Type) where
  t : α
  z : α
deriving DecidableEq, Repr

/-- The labels offered by the selector: `const equations = [...]`. -/
def equations : List String :=
  ["Sine", "Cosine", "Tangent", "Exponential", "Logarithm", "Square Root", "Quadratic", "Cubic"]

section Sampler

variable {α : Type} [LinearOrderedField α]

/-- The array `t` of `generateData`:
`Array.from({ length: n }, (_, i) => minT + (i / (n - 1)) * (maxT - minT))`
with `n = 400`, `minT = 0`, `maxT = duration`. -/
def tArray (duration : α) : List α :=
  let n : Nat := 400
  let minT : α := 0
  let maxT : α := duration
  (List.range n).map (fun (i : Nat) => minT + ((i : α) / ((n : α) - 1)) * (maxT - minT))

/-- The array `z` of `generateData`: the `switch (selectedEquation)`. -/
def zArray (M : JSMath α) (selectedEquation : String) (t : List α) : List α :=
  match selectedEquation with
  | "Sine" => t.map M.sin
  | "Cosine" => t.map M.cos
  | "Tangent" => t.map (fun v => min (max (M.tan v) (-100)) 100)
  | "Exponential" => t.map (fun v => min (M.exp v) (10 ^ 100))
  | "Logarithm" => t.map (fun v => M.log (|v| + 1))
  | "Square Root" => t.map (fun v => M.sqrt |v|)
  | "Quadratic" => t.map (fun v => v ^ 2)
  | "Cubic" => t.map (fun v => v ^ 3)
  | _ => t.map M.sin

/-- The array `newData` that `generateData` hands to `setData`:
`t.map((value, index) => ({ t: value, z: z[index] }))`.  A missing `z[index]`
(JavaScript's `undefined`) is rendered as `0`; `z` is as long as `t`, so that
case never arises (`newData_eq_map`). -/
def newData (t z : List α) : List (Sample α) :=
  t.mapIdx (fun index value => { t := value, z := z.getD index 0 })

/-- The component's `generateData`, as the value it passes to `setData`. -/
def generateData (M : JSMath α) (selectedEquation : String) (duration : α) : List (Sample α) :=
  let t := tArray duration
  let z := zArray M selectedEquation t
  newData t z

end Sampler

section Scheduler

/-- A call the component makes on the Web Audio API, in the order made.  Audio
nodes are named by the order of their creation. -/
inductive AudioCall (α : Type) where
  /-- The call `new (window.AudioContext || window.webkitAudioContext)()`. -/
  | newAudioContext
  /-- The call `audioContext.createOscillator()`, returning node `osc`. -/
  | createOscillator (osc : Nat)
  /-- The call `audioContext.createGain()`, returning node `gain`. -/
  | createGain (gain : Nat)
  /-- The assignment `oscillator.type = type`. -/
  | setType (osc : Nat) (type : String)
  /-- The call `oscillator.frequency.setValueAtTime(value, time)`. -/
  | frequencySetValueAtTime (osc : Nat) (value time : α)
  /-- The call `gainNode.gain.setValueAtTime(value, time)`. -/
  | gainSetValueAtTime (gain : Nat) (value time : α)
  /-- The call `oscillator.connect(gainNode)`. -/
  | connectOscillator (osc gain : Nat)
  /-- The call `gainNode.connect(audioContext.destination)`. -/
  | connectDestination (gain : Nat)
  /-- The call `oscillator.start()`. -/
  | start (osc : Nat)
  /-- The call `oscillator.stop(time)`: a stop scheduled for `time`. -/
  | stopAt (osc : Nat) (time : α)
  /-- The call `oscillator.stop()`: an immediate stop. -/
  | stop (osc : Nat)
  /-- The call `gainNode.disconnect()`. -/
  | disconnect (gain : Nat)
  /-- The assignment `oscillator.onended = () => { setIsPlaying(false); }`. -/
  | setOnended (osc : Nat)
deriving DecidableEq, Repr

/-- The component's state (`useState`, `useRef`) together with the part of the
host's audio state that the component acts on. -/
structure World (α : Type) where
  /-- State `selectedEquation`. -/
  selectedEquation : String
  /-- State `data`. -/
  data : List (Sample α)
  /-- State `isPlaying`. -/
  isPlaying : Bool
  /-- State `duration`. -/
  duration : α
  /-- Whether `audioContextRef.current` holds a context. -/
  audioContextRef : Bool
  /-- The oscillator in `oscillatorRef.current`, if any. -/
  oscillatorRef : Option Nat
  /-- The gain node in `gainNodeRef.current`, if any. -/
  gainNodeRef : Option Nat
  /-- Host: `audioContext.currentTime`. -/
  currentTime : α
  /-- Host: the number of audio nodes created so far. -/
  nodes : Nat
  /-- Host: every Web Audio call made so far, oldest first. -/
  calls : List (AudioCall α)
  /-- Host: the oscillators that have been started and have not stopped. -/
  sounding : List Nat
  /-- Host: the stopped oscillators whose `ended` event is not yet delivered. -/
  pendingEnded : List Nat

variable {α : Type} [LinearOrderedField α]

/-- Record a Web Audio call and its effect on the host: `start` makes the
oscillator sound, an immediate `stop` silences it and queues its `ended`
event.  A stop scheduled for later takes effect through `Event.scheduledStop`. -/
def World.call (w : World α) (c : AudioCall α) : World α :=
  let w := { w with calls := w.calls ++ [c] }
  match c with
  | .start osc => { w with sounding := osc :: w.sounding }
  | .stop osc =>
    if osc ∈ w.sounding then
      { w with sounding := w.sounding.erase osc, pendingEnded := w.pendingEnded ++ [osc] }
    else w
  | _ => w

/-- The component's `playSound`.  The result is `none` when the handler throws
(a method call on an empty ref). -/
def playSound (w : World α) : Option (World α) :=
  -- if (!audioContextRef.current) { audioContextRef.current = new AudioContext(); }
  let w := if !w.audioContextRef then
      { w.call .newAudioContext with audioContextRef := true }
    else w
  if w.isPlaying then
    -- oscillatorRef.current.stop(); gainNodeRef.current.disconnect();
    -- setIsPlaying(false); return;
    match w.oscillatorRef with
    | none => none
    | some previous =>
      let w := w.call (.stop previous)
      match w.gainNodeRef with
      | none => none
      | some previousGain =>
        let w := w.call (.disconnect previousGain)
        some { w with isPlaying := false }
  else
    let oscillator := w.nodes
    let w := { w with nodes := w.nodes + 1 }.call (.createOscillator oscillator)
    let gainNode := w.nodes
    let w := { w with nodes := w.nodes + 1 }.call (.createGain gainNode)
    let w := w.call (.setType oscillator "sine")
    let w := w.call (.frequencySetValueAtTime oscillator 440 w.currentTime)
    let w := w.call (.gainSetValueAtTime gainNode 0.5 w.currentTime)
    let w := w.call (.connectOscillator oscillator gainNode)
    let w := w.call (.connectDestination gainNode)
    let now := w.currentTime
    let w := w.data.foldl (fun w p =>
        let time := now + p.t
        let frequency := |p.z| * 140 + 110
        w.call (.frequencySetValueAtTime oscillator frequency time)) w
    let w := w.call (.start oscillator)
    let w := w.call (.stopAt oscillator (now + w.duration))
    let w := { w with oscillatorRef := some oscillator }
    let w := { w with gainNodeRef := some gainNode }
    let w := { w with isPlaying := true }
    let w := w.call (.setOnended oscillator)
    some w

/-- The handler installed as `oscillator.onended`: `setIsPlaying(false)`. -/
def onended (w : World α) : World α :=
  { w with isPlaying := false }

/-- The effect `useEffect(() => { generateData(); }, [selectedEquation, duration])`. -/
def runEffect (M : JSMath α) (w : World α) : World α :=
  { w with data := generateData M w.selectedEquation w.duration }

/-- The component after its first render and the effect that follows it. -/
def initial (M : JSMath α) : World α :=
  runEffect M
    { selectedEquation := "Sine", data := [], isPlaying := false, duration := 5,
      audioContextRef := false, oscillatorRef := none, gainNodeRef := none,
      currentTime := 0, nodes := 0, calls := [], sounding := [], pendingEnded := [] }

/-- What can happen to the component. -/
inductive Event (α : Type) where
  /-- The selector's `onChange`: `setSelectedEquation(e.target.value)`. -/
  | selectEquation (label : String)
  /-- The slider's `onChange`: `setDuration(newValue)`. -/
  | slideDuration (d : α)
  /-- A click on the play/stop button (`onClick={playSound}`) when the audio
  clock reads `now`. -/
  | click (now : α)
  /-- The audio clock reaches the stop time scheduled for a sounding oscillator. -/
  | scheduledStop (osc : Nat)
  /-- The host delivers the `ended` event of a stopped oscillator. -/
  | ended (osc : Nat)

/-- One event.  The result is `none` when the event cannot occur in `w` or its
handler throws. -/
def step (M : JSMath α) (w : World α) : Event α → Option (World α)
  | .selectEquation label => some (runEffect M { w with selectedEquation := label })
  | .slideDuration d => some (runEffect M { w with duration := d })
  | .click now => playSound { w with currentTime := now }
  | .scheduledStop osc =>
    if osc ∈ w.sounding then
      some { w with sounding := w.sounding.erase osc, pendingEnded := w.pendingEnded ++ [osc] }
    else none
  | .ended osc =>
    if osc ∈ w.pendingEnded then
      some (onended { w with pendingEnded := w.pendingEnded.erase osc })
    else none

/-- A sequence of events, from `w`. -/
def run (M : JSMath α) (w : World α) : List (Event α) → Option (World α)
  | [] => some w
  | e :: es => (step M w e).bind (fun w => run M w es)

/-- The two values of `isPlaying`, named as the playback states. -/
inductive PlaybackState where
  | Idle
  | Playing
deriving DecidableEq, Repr

/-- The playback state that `isPlaying` stands for. -/
def playbackState (w : World α) : PlaybackState :=
  if w.isPlaying then .Playing else .Idle

end Scheduler

section Statements

variable {α : Type} [LinearOrderedField α]

/-- The function the `switch` maps over `t`, one branch per `case`. -/
def zBranch (M : JSMath α) (selectedEquation : String) : α → α :=
  match selectedEquation with
  | "Sine" => M.sin
  | "Cosine" => M.cos
  | "Tangent" => fun v => min (max (M.tan v) (-100)) 100
  | "Exponential" => fun v => min (M.exp v) (10 ^ 100)
  | "Logarithm" => fun v => M.log (|v| + 1)
  | "Square Root" => fun v => M.sqrt |v|
  | "Quadratic" => fun v => v ^ 2
  | "Cubic" => fun v => v ^ 3
  | _ => M.sin

/-- The eight kinds of the specification's table. -/
inductive EquationKind where
  | Sine
  | Cosine
  | Tangent
  | Exponential
  | Logarithm
  | SquareRoot
  | Quadratic
  | Cubic
deriving DecidableEq, Repr

/-- The selector label of each kind. -/
def EquationKind.label : EquationKind → String
  | .Sine => "Sine"
  | .Cosine => "Cosine"
  | .Tangent => "Tangent"
  | .Exponential => "Exponential"
  | .Logarithm => "Logarithm"
  | .SquareRoot => "Square Root"
  | .Quadratic => "Quadratic"
  | .Cubic => "Cubic"

/-- The specification's "clamp to [lo, hi]". -/
def clampTo (lo hi x : α) : α :=
  if x < lo then lo else if hi < x then hi else x

/-- The specification's table of `f(t)` per kind, written from its words. -/
def specValue (M : JSMath α) : EquationKind → α → α
  | .Sine, t => M.sin t
  | .Cosine, t => M.cos t
  | .Tangent, t => clampTo (-100) 100 (M.tan t)
  | .Exponential, t => if M.exp t ≤ 10 ^ 100 then M.exp t else 10 ^ 100
  | .Logarithm, t => M.log (|t| + 1)
  | .SquareRoot, t => M.sqrt |t|
  | .Quadratic, t => t * t
  | .Cubic, t => t * t * t

/-- The calls `playSound` makes when it starts a tone, given the clock reading,
the number of nodes created before, the sequence and the duration. -/
def toneCalls (now : α) (osc : Nat) (data : List (Sample α)) (duration : α) :
    List (AudioCall α) :=
  [.createOscillator osc, .createGain (osc + 1), .setType osc "sine",
    .frequencySetValueAtTime osc 440 now, .gainSetValueAtTime (osc + 1) 0.5 now,
    .connectOscillator osc (osc + 1), .connectDestination (osc + 1)]
  ++ data.map (fun p => .frequencySetValueAtTime osc (|p.z| * 140 + 110) (now + p.t))
  ++ [.start osc, .stopAt osc (now + duration), .setOnended osc]

/-- The times of the frequency changes among a list of calls, in order. -/
def frequencyChangeTimes (cs : List (AudioCall α)) : List α :=
  cs.filterMap (fun c =>
    match c with
    | .frequencySetValueAtTime _ _ time => some time
    | _ => none)

/-- While `isPlaying` holds, the audio context and both node refs are set, so
the stop branch of `playSound` has nodes to act on. -/
def RefsReady (w : World α) : Prop :=
  w.isPlaying = true →
    w.audioContextRef = true ∧ ∃ osc gain, w.oscillatorRef = some osc ∧ w.gainNodeRef = some gain

/-- A rational stand-in for the host's `Math` object, for running the model on
concrete inputs: low-order polynomial and rational approximations. -/
def ratMath : JSMath ℚ where
  sin x := x - x ^ 3 / 6
  cos x := 1 - x ^ 2 / 2
  tan x := x + x ^ 3 / 3
  exp x := 1 + x + x ^ 2 / 2
  log x := 2 * (x - 1) / (x + 1)
  sqrt x := (x + 1) / 2

end Statements

section CallLemmas

variable {α : Type}

theorem frequencyChangeTimes_append (xs ys : List (AudioCall α)) :
    frequencyChangeTimes (xs ++ ys) = frequencyChangeTimes xs ++ frequencyChangeTimes ys := by
  simp [frequencyChangeTimes, List.filterMap_append]

theorem frequencyChangeTimes_context (b : Bool) :
    frequencyChangeTimes (if b then [] else [(AudioCall.newAudioContext : AudioCall α)]) = [] := by
  cases b <;> rfl

theorem refsReady_of_idle (w : World α) (h : w.isPlaying = false) : RefsReady w := by
  intro h'
  rw [h] at h'
  exact absurd h' (by decide)

theorem playbackState_congr (w w' : World α) (h : w'.isPlaying = w.isPlaying) :
    playbackState w' = playbackState w := by
  unfold playbackState
  rw [h]

theorem refsReady_congr (w w' : World α) (h1 : w'.isPlaying = w.isPlaying)
    (h2 : w'.audioContextRef = w.audioContextRef) (h3 : w'.oscillatorRef = w.oscillatorRef)
    (h4 : w'.gainNodeRef = w.gainNodeRef) (hw : RefsReady w) : RefsReady w' := by
  unfold RefsReady at *
  rw [h1, h2, h3, h4]
  exact hw

end CallLemmas

section SamplerLemmas

variable {α : Type} [LinearOrderedField α]

theorem zArray_eq_map (M : JSMath α) (sel : String) (t : List α) :
    zArray M sel t = t.map (zBranch M sel) := by
  unfold zArray zBranch
  split <;> rfl

theorem newData_eq_map (t : List α) (f : α → α) :
    newData t (t.map f) = t.map (fun v => ({ t := v, z := f v } : Sample α)) := by
  apply List.ext_getElem?
  intro i
  simp only [newData, List.getElem?_mapIdx, List.getElem?_map]
  cases h : t[i]? with
  | none => rfl
  | some v =>
    simp [List.getD, List.getElem?_map, h]

theorem generateData_eq_map (M : JSMath α) (sel : String) (d : α) :
    generateData M sel d
      = (tArray d).map (fun v => ({ t := v, z := zBranch M sel v } : Sample α)) := by
  simp only [generateData, zArray_eq_map, newData_eq_map]

theorem tArray_eq (d : α) :
    tArray d = (List.range 400).map (fun (i : Nat) => (i : α) / 399 * d) := by
  unfold tArray
  apply List.map_congr_left
  intro i _
  norm_num

theorem tArray_length (d : α) : (tArray d).length = 400 := by
  simp only [tArray, List.length_map, List.length_range]

theorem tArray_getElem? (d : α) (i : Nat) (h : i < 400) :
    (tArray d)[i]? = some ((i : α) / 399 * d) := by
  rw [tArray_eq, List.getElem?_map, List.getElem?_range h]
  rfl

theorem generateData_length (M : JSMath α) (sel : String) (d : α) :
    (generateData M sel d).length = 400 := by
  simp [generateData_eq_map, tArray_length]

theorem generateData_getElem? (M : JSMath α) (sel : String) (d : α) (i : Nat) (h : i < 400) :
    (generateData M sel d)[i]?
      = some { t := (i : α) / 399 * d, z := zBranch M sel ((i : α) / 399 * d) } := by
  simp [generateData_eq_map, List.getElem?_map, tArray_getElem? d i h]

theorem generateData_times (M : JSMath α) (sel : String) (d : α) :
    (generateData M sel d).map Sample.t = (List.range 400).map (fun (i : Nat) => (i : α) / 399 * d) := by
  simp [generateData_eq_map, tArray_eq, List.map_map, Function.comp_def]

theorem times_pairwise (n : Nat) (d : α) (hd : 0 < d) :
    List.Pairwise (fun a b => a < b) ((List.range n).map (fun (i : Nat) => (i : α) / 399 * d)) := by
  rw [List.pairwise_map]
  refine List.Pairwise.imp ?_ (List.pairwise_lt_range n)
  intro a b hab
  have h399 : (0 : α) < 399 := by norm_num
  have hc : (a : α) < (b : α) := by exact_mod_cast hab
  exact mul_lt_mul_of_pos_right (div_lt_div_of_pos_right hc h399) hd

theorem zBranch_label (M : JSMath α) (k : EquationKind) (t : α) :
    zBranch M k.label t = specValue M k t := by
  cases k
  · rfl
  · rfl
  · show min (max (M.tan t) (-100)) 100 = clampTo (-100) 100 (M.tan t)
    unfold clampTo
    by_cases h1 : M.tan t < -100
    · rw [if_pos h1, max_eq_right h1.le]
      exact min_eq_left (by norm_num)
    · rw [if_neg h1, max_eq_left (not_lt.mp h1)]
      by_cases h2 : 100 < M.tan t
      · rw [if_pos h2]; exact min_eq_right h2.le
      · rw [if_neg h2]; exact min_eq_left (not_lt.mp h2)
  · show min (M.exp t) (10 ^ 100) = if M.exp t ≤ 10 ^ 100 then M.exp t else 10 ^ 100
    by_cases h : M.exp t ≤ 10 ^ 100
    · rw [if_pos h]; exact min_eq_left h
    · rw [if_neg h]; exact min_eq_right (not_le.mp h).le
  · rfl
  · rfl
  · show t ^ 2 = t * t
    ring
  · show t ^ 3 = t * t * t
    ring

theorem mem_generateData (M : JSMath α) (sel : String) (d : α) (p : Sample α)
    (hp : p ∈ generateData M sel d) : p.z = zBranch M sel p.t := by
  rw [generateData_eq_map, List.mem_map] at hp
  obtain ⟨v, _, rfl⟩ := hp
  rfl

theorem quadratic_ten_last (M : JSMath α) :
    (Sample.mk 10 100 : Sample α) ∈ generateData M "Quadratic" 10 := by
  have h := generateData_getElem? M "Quadratic" 10 399 (by norm_num)
  have hz : ∀ x : α, zBranch M "Quadratic" x = x ^ 2 := fun _ => rfl
  have ht : ((399 : Nat) : α) / 399 * 10 = 10 := by norm_num
  rw [ht, hz] at h
  have h100 : (10 : α) ^ 2 = 100 := by norm_num
  rw [h100] at h
  exact List.getElem?_mem h

end SamplerLemmas

section SchedulerLemmas

variable {α : Type} [LinearOrderedField α]

theorem foldl_call_frequency (now : α) (osc : Nat) (data : List (Sample α)) (w : World α) :
    data.foldl (fun w p =>
        w.call (.frequencySetValueAtTime osc (|p.z| * 140 + 110) (now + p.t))) w
      = { w with calls := w.calls
            ++ data.map (fun p => .frequencySetValueAtTime osc (|p.z| * 140 + 110) (now + p.t)) } := by
  induction data generalizing w with
  | nil => simp
  | cons p ps ih =>
    rw [List.foldl_cons, ih]
    simp [World.call]

theorem playSound_idle (w : World α) (h : w.isPlaying = false) :
    playSound w = some
      { selectedEquation := w.selectedEquation, data := w.data, isPlaying := true,
        duration := w.duration, audioContextRef := true,
        oscillatorRef := some w.nodes, gainNodeRef := some (w.nodes + 1),
        currentTime := w.currentTime, nodes := w.nodes + 2,
        calls := w.calls ++ (if w.audioContextRef then [] else [.newAudioContext])
          ++ toneCalls w.currentTime w.nodes w.data w.duration,
        sounding := w.nodes :: w.sounding, pendingEnded := w.pendingEnded } := by
  cases hc : w.audioContextRef <;>
  · simp only [playSound, foldl_call_frequency]
    simp [World.call, toneCalls, h, hc]

theorem playSound_playing (w : World α) (osc gain : Nat) (h : w.isPlaying = true)
    (hctx : w.audioContextRef = true)
    (hosc : w.oscillatorRef = some osc) (hgain : w.gainNodeRef = some gain) :
    playSound w = some
      { w with
        isPlaying := false
        calls := w.calls ++ [.stop osc, .disconnect gain]
        sounding := w.sounding.erase osc
        pendingEnded := if osc ∈ w.sounding then w.pendingEnded ++ [osc] else w.pendingEnded } := by
  by_cases hs : osc ∈ w.sounding <;>
    simp [playSound, World.call, h, hctx, hosc, hgain, hs, List.erase_of_not_mem]

theorem frequencyChangeTimes_samples (now : α) (osc : Nat) (data : List (Sample α)) :
    frequencyChangeTimes
        (data.map (fun p => AudioCall.frequencySetValueAtTime osc (|p.z| * 140 + 110) (now + p.t)))
      = data.map (fun p => now + p.t) := by
  induction data with
  | nil => rfl
  | cons p ps ih =>
    simp only [List.map_cons, frequencyChangeTimes, List.filterMap_cons] at ih ⊢
    rw [ih]

theorem frequencyChangeTimes_toneCalls (now : α) (osc : Nat) (data : List (Sample α))
    (duration : α) :
    frequencyChangeTimes (toneCalls now osc data duration)
      = now :: data.map (fun p => now + p.t) := by
  unfold toneCalls
  rw [frequencyChangeTimes_append, frequencyChangeTimes_append, frequencyChangeTimes_samples]
  simp [frequencyChangeTimes]

theorem mem_toneCalls_sample (now : α) (osc : Nat) (data : List (Sample α)) (duration : α)
    (p : Sample α) (hp : p ∈ data) :
    AudioCall.frequencySetValueAtTime osc (|p.z| * 140 + 110) (now + p.t)
      ∈ toneCalls now osc data duration := by
  unfold toneCalls
  apply List.mem_append_left
  apply List.mem_append_right
  exact List.mem_map.mpr ⟨p, hp, rfl⟩

theorem refsReady_initial (M : JSMath α) : RefsReady (initial M) := by
  intro h
  exact absurd h (by simp [initial, runEffect])

theorem refsReady_step (M : JSMath α) (w w' : World α) (e : Event α)
    (hw : RefsReady w) (hstep : step M w e = some w') : RefsReady w' := by
  cases e with
  | selectEquation label =>
    simp only [step, Option.some.injEq] at hstep
    subst hstep
    exact refsReady_congr w _ rfl rfl rfl rfl hw
  | slideDuration d =>
    simp only [step, Option.some.injEq] at hstep
    subst hstep
    apply refsReady_congr w _ _ _ _ _ hw <;> simp only [runEffect]
  | click now =>
    simp only [step] at hstep
    cases hp : w.isPlaying with
    | false =>
      rw [playSound_idle _ (by exact hp), Option.some.injEq] at hstep
      subst hstep
      intro _
      exact ⟨rfl, _, _, rfl, rfl⟩
    | true =>
      obtain ⟨hctx, osc, gain, hosc, hgain⟩ := hw hp
      rw [playSound_playing _ osc gain (by exact hp) (by exact hctx) (by exact hosc)
        (by exact hgain), Option.some.injEq] at hstep
      subst hstep
      exact refsReady_of_idle _ rfl
  | scheduledStop osc =>
    simp only [step] at hstep
    split at hstep
    · rw [Option.some.injEq] at hstep
      subst hstep
      exact refsReady_congr w _ rfl rfl rfl rfl hw
    · exact absurd hstep (by simp)
  | ended osc =>
    simp only [step] at hstep
    split at hstep
    · rw [Option.some.injEq] at hstep
      subst hstep
      exact refsReady_of_idle _ rfl
    · exact absurd hstep (by simp)

theorem refsReady_run (M : JSMath α) (evs : List (Event α)) (w w' : World α)
    (hw : RefsReady w) (hrun : run M w evs = some w') : RefsReady w' := by
  induction evs generalizing w with
  | nil =>
    simp only [run, Option.some.injEq] at hrun
    subst hrun
    exact hw
  | cons e es ih =>
    simp only [run] at hrun
    cases hs : step M w e with
    | none => rw [hs] at hrun; exact absurd hrun (by simp)
    | some w1 =>
      rw [hs] at hrun
      exact ih w1 (refsReady_step M w w1 e hw hs) hrun

theorem initial_isPlaying (M : JSMath α) : (initial M).isPlaying = false := by
  simp only [initial, runEffect]

theorem initial_nodes (M : JSMath α) : (initial M).nodes = 0 := by
  simp only [initial, runEffect]

theorem initial_data (M : JSMath α) : (initial M).data = generateData M "Sine" 5 := by
  simp only [initial, runEffect]

theorem initial_duration (M : JSMath α) : (initial M).duration = 5 := by
  simp only [initial, runEffect]

theorem step_selectEquation (M : JSMath α) (w : World α) (label : String) :
    ∃ w', step M w (.selectEquation label) = some w'
      ∧ w'.selectedEquation = label ∧ w'.duration = w.duration
      ∧ w'.data = generateData M label w.duration
      ∧ w'.isPlaying = w.isPlaying ∧ w'.nodes = w.nodes ∧ w'.calls = w.calls := by
  refine ⟨_, rfl, ?_, ?_, ?_, ?_, ?_, ?_⟩ <;> simp only [runEffect]

theorem step_slideDuration (M : JSMath α) (w : World α) (d : α) :
    ∃ w', step M w (.slideDuration d) = some w'
      ∧ w'.selectedEquation = w.selectedEquation ∧ w'.duration = d
      ∧ w'.data = generateData M w.selectedEquation d
      ∧ w'.isPlaying = w.isPlaying ∧ w'.nodes = w.nodes ∧ w'.calls = w.calls := by
  refine ⟨_, rfl, ?_, ?_, ?_, ?_, ?_, ?_⟩ <;> simp only [runEffect]

theorem step_click_idle (M : JSMath α) (w : World α) (now : α) (h : w.isPlaying = false) :
    ∃ w', step M w (.click now) = some w'
      ∧ w'.isPlaying = true ∧ w'.audioContextRef = true
      ∧ w'.oscillatorRef = some w.nodes ∧ w'.gainNodeRef = some (w.nodes + 1)
      ∧ w'.nodes = w.nodes + 2 ∧ w'.sounding = w.nodes :: w.sounding
      ∧ w'.pendingEnded = w.pendingEnded
      ∧ w'.calls = w.calls ++ (if w.audioContextRef then [] else [.newAudioContext])
          ++ toneCalls now w.nodes w.data w.duration :=
  ⟨_, playSound_idle _ (by exact h), rfl, rfl, rfl, rfl, rfl, rfl, rfl, rfl⟩

theorem step_click_playing (M : JSMath α) (w : World α) (now : α) (osc gain : Nat)
    (h : w.isPlaying = true) (hctx : w.audioContextRef = true)
    (hosc : w.oscillatorRef = some osc) (hgain : w.gainNodeRef = some gain)
    (hs : osc ∈ w.sounding) :
    ∃ w', step M w (.click now) = some w'
      ∧ w'.isPlaying = false ∧ w'.audioContextRef = true
      ∧ w'.oscillatorRef = some osc ∧ w'.gainNodeRef = some gain
      ∧ w'.nodes = w.nodes ∧ w'.sounding = w.sounding.erase osc
      ∧ w'.pendingEnded = w.pendingEnded ++ [osc]
      ∧ w'.calls = w.calls ++ [.stop osc, .disconnect gain] := by
  refine ⟨_, playSound_playing _ osc gain (by exact h) (by exact hctx) (by exact hosc)
    (by exact hgain), rfl, hctx, hosc, hgain, rfl, rfl, ?_, rfl⟩
  exact if_pos hs

theorem step_ended (M : JSMath α) (w : World α) (osc : Nat) (h : osc ∈ w.pendingEnded) :
    ∃ w', step M w (.ended osc) = some w'
      ∧ w'.isPlaying = false ∧ w'.audioContextRef = w.audioContextRef
      ∧ w'.oscillatorRef = w.oscillatorRef ∧ w'.gainNodeRef = w.gainNodeRef
      ∧ w'.nodes = w.nodes ∧ w'.sounding = w.sounding
      ∧ w'.pendingEnded = w.pendingEnded.erase osc :=
  ⟨_, if_pos h, rfl, rfl, rfl, rfl, rfl, rfl, rfl⟩

end SchedulerLemmas

section Claims

variable {α : Type} [LinearOrderedField α]

/-- C1: for every equation identifier and every duration `d > 0`, `generateData`
produces exactly 400 samples, the `i`-th with time `(i / 399) * d`; the first
time is `0`, the last is `d`, and the times are strictly increasing. -/
theorem C1_generateData_grid (M : JSMath α) (selectedEquation : String) (d : α) (hd : 0 < d) :
    (generateData M selectedEquation d).length = 400
    ∧ (∀ i : Nat, i < 400 →
        ((generateData M selectedEquation d).map Sample.t)[i]? = some ((i : α) / 399 * d))
    ∧ ((generateData M selectedEquation d).map Sample.t)[0]? = some 0
    ∧ ((generateData M selectedEquation d).map Sample.t)[399]? = some d
    ∧ List.Pairwise (fun a b => a < b) ((generateData M selectedEquation d).map Sample.t) := by
  have hget : ∀ i : Nat, i < 400 →
      ((generateData M selectedEquation d).map Sample.t)[i]? = some ((i : α) / 399 * d) := by
    intro i hi
    rw [List.getElem?_map, generateData_getElem? M selectedEquation d i hi]
    rfl
  refine ⟨generateData_length M selectedEquation d, hget, ?_, ?_, ?_⟩
  · rw [hget 0 (by norm_num)]; norm_num
  · rw [hget 399 (by norm_num)]; norm_num
  · rw [generateData_times]; exact times_pairwise 400 d hd

/-- Witness of C1 at Cubic, duration 5. -/
theorem C1_generateData_grid_witness :
    (0 : ℚ) < 5
    ∧ (generateData ratMath "Cubic" 5).length = 400
    ∧ ((generateData ratMath "Cubic" 5).map Sample.t)[0]? = some 0
    ∧ ((generateData ratMath "Cubic" 5).map Sample.t)[399]? = some 5
    ∧ List.Pairwise (fun a b => a < b) ((generateData ratMath "Cubic" 5).map Sample.t) :=
  have h := C1_generateData_grid ratMath "Cubic" 5 (by norm_num)
  ⟨by norm_num, h.1, h.2.2.1, h.2.2.2.1, h.2.2.2.2⟩

/-- C2: in every sample that `generateData` produces (for every duration, so
for each of 1..10), a Tangent value lies in [-100, 100]; an Exponential value
is at most 1e100; for Logarithm the argument `|t| + 1` handed to `log` is
positive and the value is non-negative; for Square Root the argument `|t|`
handed to `sqrt` is non-negative and the value is non-negative.  The host's
`log` is assumed non-negative from 1 on and its `sqrt` non-negative from 0 on. -/
theorem C2_guarded_samples (M : JSMath α) (d : α)
    (hlog : ∀ x, 1 ≤ x → 0 ≤ M.log x) (hsqrt : ∀ x, 0 ≤ x → 0 ≤ M.sqrt x) :
    (∀ p ∈ generateData M "Tangent" d, -100 ≤ p.z ∧ p.z ≤ 100)
    ∧ (∀ p ∈ generateData M "Exponential" d, p.z ≤ 10 ^ 100)
    ∧ (∀ p ∈ generateData M "Logarithm" d,
        0 < |p.t| + 1 ∧ p.z = M.log (|p.t| + 1) ∧ 0 ≤ p.z)
    ∧ (∀ p ∈ generateData M "Square Root" d,
        0 ≤ |p.t| ∧ p.z = M.sqrt |p.t| ∧ 0 ≤ p.z) := by
  refine ⟨?_, ?_, ?_, ?_⟩
  · intro p hp
    have hz : p.z = min (max (M.tan p.t) (-100)) 100 := mem_generateData M _ d p hp
    rw [hz]
    exact ⟨le_min (le_max_right _ _) (by norm_num), min_le_right _ _⟩
  · intro p hp
    have hz : p.z = min (M.exp p.t) (10 ^ 100) := mem_generateData M _ d p hp
    rw [hz]
    exact min_le_right _ _
  · intro p hp
    have hz : p.z = M.log (|p.t| + 1) := mem_generateData M _ d p hp
    have h1 : (1 : α) ≤ |p.t| + 1 := le_add_of_nonneg_left (abs_nonneg _)
    exact ⟨lt_of_lt_of_le one_pos h1, hz, hz ▸ hlog _ h1⟩
  · intro p hp
    have hz : p.z = M.sqrt |p.t| := mem_generateData M _ d p hp
    exact ⟨abs_nonneg _, hz, hz ▸ hsqrt _ (abs_nonneg _)⟩

/-- Witness of C2 over the reals, with the real logarithm and square root,
at duration 5. -/
theorem C2_guarded_samples_witness :
    (∀ x : ℝ, 1 ≤ x → 0 ≤ Real.log x)
    ∧ (∀ x : ℝ, 0 ≤ x → 0 ≤ Real.sqrt x)
    ∧ (∀ p ∈ generateData
          (JSMath.mk Real.sin Real.cos Real.tan Real.exp Real.log Real.sqrt) "Tangent" 5,
        -100 ≤ p.z ∧ p.z ≤ 100)
    ∧ (∀ p ∈ generateData
          (JSMath.mk Real.sin Real.cos Real.tan Real.exp Real.log Real.sqrt) "Logarithm" 5,
        0 < |p.t| + 1 ∧ p.z = Real.log (|p.t| + 1) ∧ 0 ≤ p.z) :=
  have h := C2_guarded_samples
    (JSMath.mk Real.sin Real.cos Real.tan Real.exp Real.log Real.sqrt) 5
    (fun _ hx => Real.log_nonneg hx) (fun x _ => Real.sqrt_nonneg x)
  ⟨fun _ hx => Real.log_nonneg hx, fun x _ => Real.sqrt_nonneg x, h.1, h.2.2.1⟩

/-- C3: for each of the eight kinds and every duration `d`, the `i`-th sample
is `(t_i, f(t_i))` with `t_i = (i / 399) * d` and `f` the table's function for
the kind; the last sample is `(d, f(d))`; Quadratic with duration 2 ends at
`(2, 4)`; Sine with duration 5 starts at `(0, 0)` and ends at `(5, sin 5)`.
The host's `sin` is assumed to send 0 to 0. -/
theorem C3_samples_follow_table (M : JSMath α) (k : EquationKind) (d : α)
    (hsin : M.sin 0 = 0) :
    (∀ i : Nat, i < 400 →
        (generateData M k.label d)[i]?
          = some { t := (i : α) / 399 * d, z := specValue M k ((i : α) / 399 * d) })
    ∧ (generateData M k.label d).getLast? = some { t := d, z := specValue M k d }
    ∧ (generateData M "Quadratic" 2).getLast? = some { t := 2, z := 4 }
    ∧ (generateData M "Sine" 5).head? = some { t := 0, z := 0 }
    ∧ (generateData M "Sine" 5).getLast? = some { t := 5, z := M.sin 5 } := by
  have hlast : ∀ (sel : String) (e : α),
      (generateData M sel e).getLast? = some { t := e, z := zBranch M sel e } := by
    intro sel e
    rw [List.getLast?_eq_getElem?, generateData_length,
      generateData_getElem? M sel e 399 (by norm_num)]
    norm_num
  refine ⟨?_, ?_, ?_, ?_, ?_⟩
  · intro i hi
    rw [generateData_getElem? M _ d i hi, zBranch_label]
  · rw [hlast, zBranch_label]
  · rw [hlast]
    show some (Sample.mk (2 : α) ((2 : α) ^ 2)) = _
    norm_num
  · rw [List.head?_eq_getElem?, generateData_getElem? M _ 5 0 (by norm_num)]
    have h0 : ((0 : Nat) : α) / 399 * 5 = 0 := by norm_num
    rw [h0]
    show some (Sample.mk (0 : α) (M.sin 0)) = _
    rw [hsin]
  · rw [hlast]
    rfl

/-- Witness of C3 over the reals, with the real sine, at Quadratic, duration 2. -/
theorem C3_samples_follow_table_witness :
    Real.sin 0 = 0
    ∧ (generateData (JSMath.mk Real.sin Real.cos Real.tan Real.exp Real.log Real.sqrt)
        "Quadratic" 2).getLast? = some { t := 2, z := 4 }
    ∧ (generateData (JSMath.mk Real.sin Real.cos Real.tan Real.exp Real.log Real.sqrt)
        "Sine" 5).head? = some { t := 0, z := 0 }
    ∧ (generateData (JSMath.mk Real.sin Real.cos Real.tan Real.exp Real.log Real.sqrt)
        "Sine" 5).getLast? = some { t := 5, z := Real.sin 5 } :=
  have h := C3_samples_follow_table
    (JSMath.mk Real.sin Real.cos Real.tan Real.exp Real.log Real.sqrt)
    EquationKind.Quadratic 2 Real.sin_zero
  ⟨Real.sin_zero, h.2.2.1, h.2.2.2.1, h.2.2.2.2⟩

/-- C4: for a `selectedEquation` that is none of the eight labels, and every
duration, `generateData` returns the sequence it returns for "Sine". -/
theorem C4_unknown_falls_back_to_sine (M : JSMath α) (selectedEquation : String) (d : α)
    (hunknown : selectedEquation ∉ equations) :
    generateData M selectedEquation d = generateData M "Sine" d := by
  have hz : ∀ t : List α, zArray M selectedEquation t = zArray M "Sine" t := by
    intro t
    simp only [equations, List.mem_cons, List.mem_singleton, List.not_mem_nil, or_false,
      not_or] at hunknown
    obtain ⟨h1, h2, h3, h4, h5, h6, h7, h8⟩ := hunknown
    unfold zArray
    split <;> first | rfl | contradiction
  simp only [generateData, hz]

/-- Witness of C4 at the unknown label "Zeta", duration 5. -/
theorem C4_unknown_falls_back_to_sine_witness :
    "Zeta" ∉ equations
    ∧ generateData ratMath "Zeta" 5 = generateData ratMath "Sine" 5 :=
  ⟨by decide, C4_unknown_falls_back_to_sine ratMath "Zeta" 5 (by decide)⟩

/-- C5: `playSound` invoked in the Idle state, with sequence `data`, duration
`d` and clock reading `now`, creates one oscillator of type sine with initial
frequency 440 at `now` and one gain node with gain 0.5 at `now`, issues to the
oscillator one frequency change per sample, in sequence order, to
`|z| * 140 + 110` at `now + t`, then starts the oscillator, schedules its stop
at `now + d`, and leaves the state Playing. -/
theorem C5_playSound_from_idle (w : World α) (hidle : w.isPlaying = false) :
    ∃ w', playSound w = some w'
      ∧ w'.calls = w.calls ++ (if w.audioContextRef then [] else [.newAudioContext])
          ++ [.createOscillator w.nodes, .createGain (w.nodes + 1), .setType w.nodes "sine",
              .frequencySetValueAtTime w.nodes 440 w.currentTime,
              .gainSetValueAtTime (w.nodes + 1) 0.5 w.currentTime,
              .connectOscillator w.nodes (w.nodes + 1), .connectDestination (w.nodes + 1)]
          ++ w.data.map (fun p =>
              .frequencySetValueAtTime w.nodes (|p.z| * 140 + 110) (w.currentTime + p.t))
          ++ [.start w.nodes, .stopAt w.nodes (w.currentTime + w.duration),
              .setOnended w.nodes]
      ∧ w'.sounding = w.nodes :: w.sounding
      ∧ w'.oscillatorRef = some w.nodes
      ∧ w'.gainNodeRef = some (w.nodes + 1)
      ∧ w'.isPlaying = true := by
  refine ⟨_, playSound_idle w hidle, ?_, rfl, rfl, rfl, rfl⟩
  simp [toneCalls]

/-- Witness of C5 at the component's first world. -/
theorem C5_playSound_from_idle_witness :
    (initial ratMath).isPlaying = false
    ∧ ∃ w', playSound (initial ratMath) = some w'
        ∧ w'.sounding = [0] ∧ w'.oscillatorRef = some 0 ∧ w'.gainNodeRef = some 1
        ∧ w'.isPlaying = true :=
  have h := C5_playSound_from_idle (initial ratMath) rfl
  ⟨rfl, h.choose, h.choose_spec.1, h.choose_spec.2.2.1, h.choose_spec.2.2.2.1,
    h.choose_spec.2.2.2.2.1, h.choose_spec.2.2.2.2.2⟩

/-- C6 (the claim as stated fails): after one click has started a tone, the
next click, made while the state is Playing, only stops it: the state is Idle
afterwards, no node has been created, nothing sounds, and the only calls made
are the stop and the disconnect. -/
theorem C6_second_click_only_stops :
    ∃ w w' : World ℚ, step ratMath (initial ratMath) (.click 0) = some w
      ∧ w.isPlaying = true
      ∧ step ratMath w (.click 1) = some w'
      ∧ w'.isPlaying = false
      ∧ w'.nodes = w.nodes
      ∧ w'.sounding = []
      ∧ w'.calls = w.calls ++ [.stop 0, .disconnect 1] := by
  obtain ⟨w, h1, hp, hctx, hosc, hgain, hn, hs, _, _⟩ :=
    step_click_idle ratMath (initial ratMath) 0 rfl
  have hosc0 : w.oscillatorRef = some 0 := hosc
  have hgain1 : w.gainNodeRef = some 1 := hgain
  have hs0 : w.sounding = [0] := hs
  obtain ⟨w', h2, hp', _, _, _, hn', hs', _, hc'⟩ :=
    step_click_playing ratMath w 1 0 1 hp hctx hosc0 hgain1 (by rw [hs0]; decide)
  refine ⟨w, w', h1, hp, h2, hp', hn', ?_, hc'⟩
  rw [hs', hs0]
  decide

/-- C6 (as amended): `playSound` invoked while the state is Playing stops the
previous oscillator, disconnects the previous gain node, creates and starts
nothing, and leaves the state Idle. -/
theorem C6_playSound_while_playing_stops (w : World α) (osc gain : Nat)
    (hplaying : w.isPlaying = true) (hctx : w.audioContextRef = true)
    (hosc : w.oscillatorRef = some osc) (hgain : w.gainNodeRef = some gain) :
    ∃ w', playSound w = some w'
      ∧ w'.calls = w.calls ++ [.stop osc, .disconnect gain]
      ∧ w'.nodes = w.nodes
      ∧ w'.sounding = w.sounding.erase osc
      ∧ w'.isPlaying = false :=
  ⟨_, playSound_playing w osc gain hplaying hctx hosc hgain, rfl, rfl, rfl, rfl⟩

/-- Witness of C6 (as amended) at the world the first click leaves. -/
theorem C6_playSound_while_playing_stops_witness :
    ∃ w : World ℚ, step ratMath (initial ratMath) (.click 0) = some w
      ∧ w.isPlaying = true ∧ w.audioContextRef = true
      ∧ w.oscillatorRef = some 0 ∧ w.gainNodeRef = some 1
      ∧ ∃ w', playSound w = some w'
          ∧ w'.calls = w.calls ++ [.stop 0, .disconnect 1]
          ∧ w'.nodes = w.nodes
          ∧ w'.sounding = w.sounding.erase 0
          ∧ w'.isPlaying = false := by
  obtain ⟨w, h1, hp, hctx, hosc, hgain, _⟩ := step_click_idle ratMath (initial ratMath) 0 rfl
  exact ⟨w, h1, hp, hctx, hosc, hgain,
    C6_playSound_while_playing_stops w 0 1 hp hctx hosc hgain⟩

/-- C7: `isPlaying` follows the machine Idle --play--> Playing --(stop |
natural end)--> Idle.  The component starts Idle.  In every world reached from
the start by any events: a click in Idle runs `playSound` to Playing; a click in
Playing stops the oscillator, disconnects the gain node, makes no other call,
creates no node and yields Idle; every delivery of `onended` yields Idle; and a
step changes the state only as Idle to Playing by a click, or as Playing to Idle
by a click or by `onended`. -/
theorem C7_playback_state_machine (M : JSMath α) (evs : List (Event α)) (w : World α)
    (hreach : run M (initial M) evs = some w) :
    playbackState (initial M) = .Idle
    ∧ (playbackState w = .Idle → ∀ now, ∃ w',
        step M w (.click now) = some w' ∧ playbackState w' = .Playing)
    ∧ (playbackState w = .Playing → ∀ now, ∃ w' osc gain,
        w.oscillatorRef = some osc ∧ w.gainNodeRef = some gain
        ∧ step M w (.click now) = some w'
        ∧ w'.calls = w.calls ++ [.stop osc, .disconnect gain]
        ∧ w'.nodes = w.nodes
        ∧ w'.sounding = w.sounding.erase osc
        ∧ playbackState w' = .Idle)
    ∧ (∀ osc w', step M w (.ended osc) = some w' → playbackState w' = .Idle)
    ∧ (∀ e w', step M w e = some w' →
        playbackState w' = playbackState w
        ∨ (playbackState w = .Idle ∧ playbackState w' = .Playing ∧ ∃ now, e = .click now)
        ∨ (playbackState w = .Playing ∧ playbackState w' = .Idle
            ∧ ((∃ now, e = .click now) ∨ ∃ osc, e = .ended osc))) := by
  have hready : RefsReady w := refsReady_run M evs _ w (refsReady_initial M) hreach
  have hidle : ∀ v : World α, playbackState v = .Idle ↔ v.isPlaying = false := by
    intro v
    cases h : v.isPlaying <;> simp [playbackState, h]
  have hplaying : ∀ v : World α, playbackState v = .Playing ↔ v.isPlaying = true := by
    intro v
    cases h : v.isPlaying <;> simp [playbackState, h]
  have hclickIdle : w.isPlaying = false → ∀ now, ∃ w',
      step M w (.click now) = some w' ∧ playbackState w' = .Playing := by
    intro h now
    exact ⟨_, playSound_idle _ (by exact h), rfl⟩
  have hclickPlaying : w.isPlaying = true → ∀ now, ∃ w' osc gain,
      w.oscillatorRef = some osc ∧ w.gainNodeRef = some gain
      ∧ step M w (.click now) = some w'
      ∧ w'.calls = w.calls ++ [.stop osc, .disconnect gain]
      ∧ w'.nodes = w.nodes
      ∧ w'.sounding = w.sounding.erase osc
      ∧ playbackState w' = .Idle := by
    intro h now
    obtain ⟨hctx, osc, gain, hosc, hgain⟩ := hready h
    exact ⟨_, osc, gain, hosc, hgain,
      playSound_playing _ osc gain (by exact h) (by exact hctx) (by exact hosc) (by exact hgain),
      rfl, rfl, rfl, rfl⟩
  have hended : ∀ osc w', step M w (.ended osc) = some w' → w'.isPlaying = false := by
    intro osc w' hstep
    simp only [step] at hstep
    split at hstep
    · rw [Option.some.injEq] at hstep
      subst hstep
      rfl
    · exact absurd hstep (by simp)
  refine ⟨rfl, fun h => hclickIdle ((hidle w).mp h), fun h => hclickPlaying ((hplaying w).mp h),
    fun osc w' h => (hidle w').mpr (hended osc w' h), ?_⟩
  intro e w' hstep
  cases e with
  | selectEquation label =>
    simp only [step, Option.some.injEq] at hstep
    subst hstep
    exact Or.inl rfl
  | slideDuration d =>
    simp only [step, Option.some.injEq] at hstep
    subst hstep
    exact Or.inl (playbackState_congr _ _ (by simp only [runEffect]))
  | click now =>
    cases hp : w.isPlaying with
    | false =>
      obtain ⟨w1, h1, h2⟩ := hclickIdle hp now
      rw [h1, Option.some.injEq] at hstep
      subst hstep
      exact Or.inr (Or.inl ⟨(hidle w).mpr hp, h2, now, rfl⟩)
    | true =>
      obtain ⟨w1, osc, gain, _, _, h1, _, _, _, h2⟩ := hclickPlaying hp now
      rw [h1, Option.some.injEq] at hstep
      subst hstep
      exact Or.inr (Or.inr ⟨(hplaying w).mpr hp, h2, Or.inl ⟨now, rfl⟩⟩)
  | scheduledStop osc =>
    simp only [step] at hstep
    split at hstep
    · rw [Option.some.injEq] at hstep
      subst hstep
      exact Or.inl rfl
    · exact absurd hstep (by simp)
  | ended osc =>
    have h2 := hended osc w' hstep
    cases hp : w.isPlaying with
    | false =>
      left
      rw [(hidle w).mpr hp, (hidle w').mpr h2]
    | true =>
      exact Or.inr (Or.inr ⟨(hplaying w).mpr hp, (hidle w').mpr h2, Or.inr ⟨osc, rfl⟩⟩)

/-- Witness of C7 at the world the first click leaves: it is Playing, and a
second click takes it to Idle. -/
theorem C7_playback_state_machine_witness :
    ∃ w : World ℚ, run ratMath (initial ratMath) [.click 0] = some w
      ∧ playbackState w = .Playing
      ∧ ∃ w', step ratMath w (.click 1) = some w' ∧ playbackState w' = .Idle := by
  obtain ⟨w, h1, hp, _⟩ := step_click_idle ratMath (initial ratMath) 0 rfl
  have hrun : run ratMath (initial ratMath) [.click 0] = some w := by
    simp only [run, h1, Option.some_bind]
  have hplaying : playbackState w = .Playing := by
    simp only [playbackState, hp, if_true]
  obtain ⟨w', _, _, _, _, hstep, _, _, _, hidle⟩ :=
    (C7_playback_state_machine ratMath [.click 0] w hrun).2.2.1 hplaying 1
  exact ⟨w, hrun, hplaying, w', hstep, hidle⟩

/-- C8 (the code breaks the claim): play, stop, play again, then the `ended`
event of the first oscillator (stopped by hand) arrives while the second one
sounds.  It clears `isPlaying` although an oscillator is live, so the next
click starts a third oscillator and two tones sound at once. -/
theorem C8_stale_ended_lets_tones_overlap :
    ∃ w4 w5 : World ℚ,
      run ratMath (initial ratMath) [.click 0, .click 1, .click 1, .ended 0] = some w4
      ∧ w4.sounding = [2] ∧ w4.isPlaying = false
      ∧ run ratMath (initial ratMath) [.click 0, .click 1, .click 1, .ended 0, .click 2]
          = some w5
      ∧ w5.sounding = [4, 2] ∧ w5.isPlaying = true := by
  obtain ⟨w1, h1, hp1, hctx1, hosc1, hgain1, hn1, hs1, he1, _⟩ :=
    step_click_idle ratMath (initial ratMath) 0 rfl
  have hosc1' : w1.oscillatorRef = some 0 := hosc1
  have hgain1' : w1.gainNodeRef = some 1 := hgain1
  have hs1' : w1.sounding = [0] := hs1
  have he1' : w1.pendingEnded = [] := he1
  have hn1' : w1.nodes = 2 := hn1
  obtain ⟨w2, h2, hp2, hctx2, hosc2, hgain2, hn2, hs2, he2, _⟩ :=
    step_click_playing ratMath w1 1 0 1 hp1 hctx1 hosc1' hgain1' (by rw [hs1']; decide)
  have hs2' : w2.sounding = [] := by rw [hs2, hs1']; decide
  have he2' : w2.pendingEnded = [0] := by rw [he2, he1']; rfl
  have hn2' : w2.nodes = 2 := by rw [hn2, hn1']
  obtain ⟨w3, h3, hp3, hctx3, hosc3, hgain3, hn3, hs3, he3, _⟩ :=
    step_click_idle ratMath w2 1 hp2
  have hs3' : w3.sounding = [2] := by rw [hs3, hs2', hn2']
  have he3' : w3.pendingEnded = [0] := by rw [he3, he2']
  have hn3' : w3.nodes = 4 := by rw [hn3, hn2']
  obtain ⟨w4, h4, hp4, hctx4, hosc4, hgain4, hn4, hs4, he4⟩ :=
    step_ended ratMath w3 0 (by rw [he3']; decide)
  have hs4' : w4.sounding = [2] := by rw [hs4, hs3']
  have hn4' : w4.nodes = 4 := by rw [hn4, hn3']
  obtain ⟨w5, h5, hp5, _, _, _, _, hs5, _, _⟩ := step_click_idle ratMath w4 2 hp4
  have hs5' : w5.sounding = [4, 2] := by rw [hs5, hs4', hn4']
  refine ⟨w4, w5, ?_, hs4', hp4, ?_, hs5', hp5⟩
  · simp only [run, h1, h2, h3, h4, Option.some_bind]
  · simp only [run, h1, h2, h3, h4, h5, Option.some_bind]

/-- C9 (the code breaks the claim): with Quadratic selected and duration 10
the last sample is `(10, 100)`, and the click that plays it schedules the
frequency `|100| * 140 + 110 = 14110`, which is above 990. -/
theorem C9_quadratic_ten_leaves_band :
    ∃ w : World ℚ,
      run ratMath (initial ratMath)
          [.selectEquation "Quadratic", .slideDuration 10, .click 0] = some w
      ∧ (Sample.mk 10 100 : Sample ℚ) ∈ generateData ratMath "Quadratic" 10
      ∧ AudioCall.frequencySetValueAtTime 0 14110 10 ∈ w.calls
      ∧ ¬ ((14110 : ℚ) ≤ 990) := by
  have hmem := quadratic_ten_last ratMath
  have hcall := mem_toneCalls_sample (0 : ℚ) 0 (generateData ratMath "Quadratic" 10) 10
    (Sample.mk 10 100) hmem
  have hval : |(100 : ℚ)| * 140 + 110 = 14110 := by norm_num
  have htime : (0 : ℚ) + 10 = 10 := by norm_num
  simp only [hval, htime] at hcall
  obtain ⟨w1, h1, hsel1, _, _, hp1, hn1, _⟩ :=
    step_selectEquation ratMath (initial ratMath) "Quadratic"
  obtain ⟨w2, h2, _, hd2, hdata2, hp2, hn2, _⟩ := step_slideDuration ratMath w1 10
  obtain ⟨w, h3, _, _, _, _, _, _, _, hcalls⟩ :=
    step_click_idle ratMath w2 0 (by rw [hp2, hp1, initial_isPlaying])
  refine ⟨w, ?_, hmem, ?_, by norm_num⟩
  · simp only [run, h1, h2, h3, Option.some_bind]
  · rw [hcalls, hdata2, hsel1, hd2, hn2, hn1, initial_nodes]
    exact List.mem_append_right _ hcall

/-- C10: when a sequence produced by `generateData` with duration `d > 0` is
played by `playSound` with the same `d` at clock reading `now`, the frequency
changes it issues are the carrier's initial value at `now` followed by the 400
per-sample changes at `now + t_i`; these 400 times are strictly increasing in
the order issued, the first is `now`, the last is `now + d`, each lies between
`now` and `now + d`, and the stop is scheduled at `now + d`. -/
theorem C10_schedule_times_increase (M : JSMath α) (selectedEquation : String) (d : α)
    (hd : 0 < d) (w : World α) (hidle : w.isPlaying = false)
    (hdata : w.data = generateData M selectedEquation d) (hduration : w.duration = d) :
    ∃ w' ts, playSound w = some w'
      ∧ frequencyChangeTimes (w'.calls.drop w.calls.length) = w.currentTime :: ts
      ∧ ts = (List.range 400).map (fun (i : Nat) => w.currentTime + (i : α) / 399 * d)
      ∧ List.Pairwise (fun a b => a < b) ts
      ∧ ts.head? = some w.currentTime
      ∧ ts.getLast? = some (w.currentTime + d)
      ∧ (∀ t ∈ ts, w.currentTime ≤ t ∧ t ≤ w.currentTime + d)
      ∧ AudioCall.stopAt w.nodes (w.currentTime + d) ∈ w'.calls.drop w.calls.length := by
  have hts : w.data.map (fun p => w.currentTime + p.t)
      = (List.range 400).map (fun (i : Nat) => w.currentTime + (i : α) / 399 * d) := by
    have h := generateData_times M selectedEquation d
    rw [← hdata] at h
    have h2 : w.data.map (fun p => w.currentTime + p.t)
        = (w.data.map Sample.t).map (fun t => w.currentTime + t) := by
      rw [List.map_map]; rfl
    rw [h2, h, List.map_map]; rfl
  refine ⟨_, _, playSound_idle w hidle, ?_, hts, ?_, ?_, ?_, ?_, ?_⟩
  · show frequencyChangeTimes (List.drop w.calls.length
        (w.calls ++ (if w.audioContextRef then [] else [.newAudioContext])
          ++ toneCalls w.currentTime w.nodes w.data w.duration)) = _
    rw [List.append_assoc, List.drop_left, frequencyChangeTimes_append,
      frequencyChangeTimes_context, frequencyChangeTimes_toneCalls]
    rfl
  · rw [hts, List.pairwise_map]
    refine List.Pairwise.imp ?_ (List.pairwise_lt_range 400)
    intro a b hab
    have h399 : (0 : α) < 399 := by norm_num
    have hc : (a : α) < (b : α) := by exact_mod_cast hab
    exact add_lt_add_left (mul_lt_mul_of_pos_right (div_lt_div_of_pos_right hc h399) hd) _
  · rw [hts, List.head?_eq_getElem?, List.getElem?_map, List.getElem?_range (by norm_num)]
    simp
  · rw [hts, List.getLast?_eq_getElem?, List.getElem?_map, List.length_map, List.length_range,
      List.getElem?_range (by norm_num)]
    norm_num
  · intro t ht
    rw [hts, List.mem_map] at ht
    obtain ⟨i, hi, rfl⟩ := ht
    rw [List.mem_range] at hi
    have h399 : (0 : α) < 399 := by norm_num
    have hi1 : (i : α) ≤ 399 := by exact_mod_cast (Nat.lt_succ_iff.mp hi)
    have h0 : 0 ≤ (i : α) / 399 := div_nonneg (Nat.cast_nonneg i) h399.le
    have h1 : (i : α) / 399 ≤ 1 := (div_le_one h399).mpr hi1
    constructor
    · exact le_add_of_nonneg_right (mul_nonneg h0 hd.le)
    · exact add_le_add_left (mul_le_of_le_one_left hd.le h1) _
  · show _ ∈ List.drop w.calls.length
        (w.calls ++ (if w.audioContextRef then [] else [.newAudioContext])
          ++ toneCalls w.currentTime w.nodes w.data w.duration)
    rw [List.append_assoc, List.drop_left, hduration]
    simp [toneCalls]

/-- Witness of C10 at the component's first world: Sine, duration 5. -/
theorem C10_schedule_times_increase_witness :
    (0 : ℚ) < 5
    ∧ (initial ratMath).isPlaying = false
    ∧ (initial ratMath).data = generateData ratMath "Sine" 5
    ∧ (initial ratMath).duration = 5
    ∧ ∃ w' ts, playSound (initial ratMath) = some w'
        ∧ frequencyChangeTimes (w'.calls.drop (initial ratMath).calls.length)
            = (initial ratMath).currentTime :: ts
        ∧ List.Pairwise (fun a b => a < b) ts
        ∧ ts.head? = some (initial ratMath).currentTime
        ∧ ts.getLast? = some ((initial ratMath).currentTime + 5) := by
  obtain ⟨w', ts, h1, h2, _, h4, h5, h6, _⟩ :=
    C10_schedule_times_increase ratMath "Sine" 5 (by norm_num) (initial ratMath)
      (initial_isPlaying ratMath) (initial_data ratMath) (initial_duration ratMath)
  exact ⟨by norm_num, initial_isPlaying ratMath, initial_data ratMath,
    initial_duration ratMath, w', ts, h1, h2, h4, h5, h6⟩

end Claims

end MusicReimann
